import Mathlib

/-!
Verification of the deep-research orchestration core:
`skills/deep-research/scripts/deep_research.py` (orchestrator: dispatch,
collection, global timeout, canonical ordering, mock mode) and
`skills/deep-research/scripts/lib/gemini_dr.py` (asynchronous provider client:
polling state machine and report/citation extraction).

Modeling conventions.
JSON values (parsed HTTP responses and fixture files) are modeled by `JVal`;
numbers as rationals.  Network traffic is modeled by scripted inputs: a
provider call is represented by its outcome, a polling endpoint by the
sequence of responses it returns.  Wall-clock time is outside the embedding;
the `elapsed_seconds` measurement is threaded through as an input.  Python
exceptions are modeled as pairs of a type name and a message (`PyExc`);
code that raises is embedded in `Except PyExc`.
-/

namespace DeepResearch

/-- JSON-like values as produced by `json.load` and the HTTP layer: Python
dicts, lists, strings, numbers, booleans and None. -/
inductive JVal where
  | str (s : String)
  | num (q : ℚ)
  | jbool (b : Bool)
  | arr (xs : List JVal)
  | obj (fields : List (String × JVal))
  | jnull
deriving Repr

/-- Python dict key lookup, the first binding of the key (dict keys are
unique).  Non-dict receivers give `none`. -/
def JVal.find (v : JVal) (k : String) : Option JVal :=
  match v with
  | .obj fields => fields.lookup k
  | _ => none

/-- Python `d.get(k, default)`.  The source only applies `.get` to values it
just obtained as dicts or with a dict default; a non-dict receiver (which
would raise `AttributeError` in Python) is mapped to the default here and is
not exercised by any claim. -/
def JVal.get (v : JVal) (k : String) (d : JVal) : JVal := (v.find k).getD d

/-- Python truthiness of a JSON value. -/
def JVal.truthy : JVal → Bool
  | .str s => s != ""
  | .num q => q != 0
  | .jbool b => b
  | .arr xs => !xs.isEmpty
  | .obj fields => !fields.isEmpty
  | .jnull => false

/-- Read a JSON value expected to be a string (report text, model names,
urls, error messages).  The code paths under verification only ever place
strings here; a non-string value (on which Python would either apply `str`
formatting or fail later, e.g. `re.findall` over a non-string report) is
mapped to the empty string. -/
def JVal.asString : JVal → String
  | .str s => s
  | _ => ""

/-- Python membership `v in (s1, s2, ...)` of a JSON value against a tuple of
string literals: only an equal string matches. -/
def JVal.isOneOf (v : JVal) (ss : List String) : Bool :=
  match v with
  | .str s => ss.contains s
  | _ => false

/-- A raised Python exception, by type name and message (the orchestrator
renders exceptions as `type(e).__name__` plus `str(e)`). -/
structure PyExc where
  name : String
  msg : String
deriving DecidableEq, Repr

/-- Modelled from the spec: the `ProviderResult` record of `lib/render.py`,
whose source is not among the provided files.  Section 3 of the spec
(ProviderOutcome): provider identifier, success flag, report text (empty when
success is false), ordered citation records, model identifier, elapsed
seconds rounded to one decimal, and a classified error present only on
failure.  Fields omitted at a construction site take the defaults below,
following the spec (report and citations are meaningful only on success). -/
structure ProviderResult where
  provider : String
  success : Bool
  report : String := ""
  citations : List JVal := []
  model : String := ""
  elapsed_seconds : ℚ := 0
  error : Option String := none

/-- Outcome of one provider-module `research(api_key, topic)` call: a triple
of report text, citation records and model identifier, or a raised
exception. -/
abbrev ResearchResult := Except PyExc (String × List JVal × String)

/-- Embeds `deep_research.run_provider`.  The call into
`PROVIDER_MODULES[provider].research(api_key, topic)` is modeled by its
outcome `res`; `modelFallback` is the module constant looked up by
`PROVIDER_MODULES[provider].__dict__.get("MODEL", "unknown")`; `elapsed` is
the measured wall-clock duration after rounding, which is outside the
embedding.  Every exception from the unit of work is caught and converted to
a failed result carrying the exception type name and message. -/
def run_provider (provider : String) (res : ResearchResult)
    (modelFallback : String) (elapsed : ℚ) : ProviderResult :=
  match res with
  | .ok (report, citations, model) =>
    { provider := provider, success := true, report := report,
      citations := citations, model := model, elapsed_seconds := elapsed }
  | .error e =>
    { provider := provider, success := false, model := modelFallback,
      elapsed_seconds := elapsed,
      error := some (e.name ++ ": " ++ e.msg) }

/-- Embeds `deep_research.load_fixture`.  The fixtures directory is modeled
as a map `fs` from file name to parsed contents, `none` meaning the file does
not exist; a missing file yields the empty dict. -/
def load_fixture (fs : String → Option JVal) (name : String) : JVal :=
  (fs name).getD (.obj [])

/-- The `fixture_map` literal of `deep_research.run_mock`. -/
def fixture_map : List (String × String) :=
  [("openai", "openai_sample.json"), ("perplexity", "perplexity_sample.json"),
   ("gemini", "gemini_sample.json")]

/-- The body of the per-provider loop of `deep_research.run_mock`: the one
result appended for `provider`.  Fixture fields are read with the same `.get`
defaults as the source; `success` is recorded by its truthiness and
`citations` as the elements of a JSON array, matching the shapes the script
ever observes of these fields. -/
def mockOutcome (fs : String → Option JVal) (provider : String) :
    ProviderResult :=
    let fname := (fixture_map.lookup provider).getD ""
    let fixture := load_fixture fs fname
    if fixture.truthy then
      { provider := provider
        success := (fixture.get "success" (.jbool true)).truthy
        report := (fixture.get "report" (.str "")).asString
        citations :=
          match fixture.get "citations" (.arr []) with
          | .arr xs => xs
          | _ => []
        model := (fixture.get "model" (.str ("mock-" ++ provider))).asString
        elapsed_seconds :=
          match fixture.get "elapsed_seconds" (.num 0) with
          | .num q => q
          | _ => 0
        error := (fixture.find "error").map JVal.asString }
    else
      { provider := provider, success := false,
        error := some ("Fixture not found: " ++
          ((fixture_map.lookup provider).getD "unknown")) }

/-- Embeds `deep_research.run_mock`: the per-provider loop appending one
result each becomes a map of `mockOutcome`. -/
def run_mock (fs : String → Option JVal) (providers : List String) :
    List ProviderResult :=
  providers.map (mockOutcome fs)

/-- Embeds the live collection loop of `deep_research.main`.
`completionOrder` lists the dispatched providers in the order their futures
complete, and `arrived` of them complete within the global `--timeout`.
`concurrent.futures.as_completed(futures, timeout=...)` yields the futures
that complete in time, in completion order, and then — if any future is still
outstanding — raises `TimeoutError` from its iterator.  That exception is
raised at the `for` statement itself, outside the loop body, so the
`except Exception` wrapped around `future.result()` cannot catch it, and it
propagates out of `main` (modeled as `Except.error`; the partially collected
list is discarded).  When every future completes in time, each yielded
`future.result()` is the value `run_provider` returned — `run_provider`
catches every exception of its unit of work, so `future.result()` never
raises and the loop appends exactly one result per yielded future. -/
def collectLive (research : String → ResearchResult)
    (modelOf : String → String) (elapsedOf : String → ℚ)
    (completionOrder : List String) (arrived : Nat) :
    Except PyExc (List ProviderResult) :=
  if arrived < completionOrder.length then
    .error { name := "TimeoutError", msg := "" }
  else
    .ok (completionOrder.map (fun p =>
      run_provider p (research p) (modelOf p) (elapsedOf p)))

/-- The canonical priority key of `deep_research.main`:
`order.get(r.provider, 99)` over the literal dict
openai to 0, perplexity to 1, gemini to 2. -/
def orderKey (provider : String) : Nat :=
  ((([("openai", 0), ("perplexity", 1), ("gemini", 2)] :
    List (String × Nat)).lookup provider)).getD 99

/-- Embeds `results.sort(key=lambda r: order.get(r.provider, 99))`.  Python
`list.sort` is a stable sort by the key; `List.mergeSort` is the stable sort
of the Lean library. -/
def sortResults (rs : List ProviderResult) : List ProviderResult :=
  rs.mergeSort (fun a b => decide (orderKey a.provider ≤ orderKey b.provider))

/-- The result computation of `deep_research.main` after argument parsing:
in mock mode the provider list is replaced by all three providers and
`run_mock` is used (no network input is consulted); otherwise the live
collection runs.  Either way the outcome list is then sorted canonically. -/
def mainResults (mock : Bool) (fs : String → Option JVal)
    (research : String → ResearchResult) (modelOf : String → String)
    (elapsedOf : String → ℚ) (completionOrder : List String)
    (arrived : Nat) : Except PyExc (List ProviderResult) :=
  if mock then
    .ok (sortResults (run_mock fs ["openai", "perplexity", "gemini"]))
  else
    (collectLive research modelOf elapsedOf completionOrder arrived).map
      sortResults

/-! The Gemini provider client, `lib/gemini_dr.py`: submission, the polling
state machine, and report/citation extraction. -/

/-- Module constant `AGENT` of `gemini_dr`. -/
def AGENT : String := "deep-research-pro-preview-12-2025"

/-- Module constant `POLL_INTERVAL` (seconds) of `gemini_dr`. -/
def POLL_INTERVAL : Nat := 15

/-- Module constant `MAX_POLL_ATTEMPTS` of `gemini_dr`. -/
def MAX_POLL_ATTEMPTS : Nat := 40

/-- The status probe used on submission and poll responses:
`resp.get` of the key status, defaulting to the status field of the metadata
dict, defaulting to the empty string. -/
def statusOf (resp : JVal) : JVal :=
  resp.get "status" ((resp.get "metadata" (.obj [])).get "status" (.str ""))

/-- Statement-side helper: the poll response reports a terminal status
(completed or failed, in either casing). -/
def isTerminal (resp : JVal) : Bool :=
  (statusOf resp).isOneOf ["completed", "COMPLETED"] ||
    (statusOf resp).isOneOf ["failed", "FAILED"]

/-- The error message of the failed branch of `_poll_response`:
`resp.get` of the key error (default empty dict); for a dict payload its
message field (default the text Unknown error), otherwise Python `str` of the
payload. -/
def failedMsg (resp : JVal) : String :=
  match resp.get "error" (.obj []) with
  | .obj fields =>
    ((JVal.obj fields).get "message" (.str "Unknown error")).asString
  | v => v.asString

/-- The timeout message raised when the attempt budget is exhausted. -/
def timeoutMsg : String :=
  "Gemini deep research timed out after " ++
    toString (MAX_POLL_ATTEMPTS * POLL_INTERVAL) ++ "s"

/-- One run of the polling loop: its final result (the completed response, or
the raised `HTTPError`) together with how many status-check calls (`polls`)
and how many sleeps (`sleeps`) it performed. -/
structure PollTrace where
  result : Except PyExc JVal
  polls : Nat
  sleeps : Nat

/-- Embeds the `for attempt in range(MAX_POLL_ATTEMPTS)` loop of
`gemini_dr._poll_response` against a scripted polling endpoint: `script n` is
the response `http.get` returns to the n-th status-check call.  `attempt` is
the index of the next call and `remaining` the attempts left in the range;
when the range is exhausted the loop falls through to raising the timeout
`HTTPError`.  A completed status returns the response; a failed status raises
an `HTTPError` carrying the extracted provider message; any other status
sleeps `POLL_INTERVAL` seconds and continues. -/
def pollGo (script : Nat → JVal) : Nat → Nat → PollTrace
  | _, 0 =>
    { result := .error { name := "HTTPError", msg := timeoutMsg },
      polls := 0, sleeps := 0 }
  | attempt, remaining + 1 =>
    if (statusOf (script attempt)).isOneOf ["completed", "COMPLETED"] then
      { result := .ok (script attempt), polls := 1, sleeps := 0 }
    else if (statusOf (script attempt)).isOneOf ["failed", "FAILED"] then
      { result := .error ⟨"HTTPError",
          "Gemini deep research failed: " ++ failedMsg (script attempt)⟩,
        polls := 1, sleeps := 0 }
    else
      { result := (pollGo script (attempt + 1) remaining).result,
        polls := (pollGo script (attempt + 1) remaining).polls + 1,
        sleeps := (pollGo script (attempt + 1) remaining).sleeps + 1 }

/-- Embeds `gemini_dr._poll_response`. -/
def poll_response (script : Nat → JVal) : PollTrace :=
  pollGo script 0 MAX_POLL_ATTEMPTS

/-- Modelled from the spec: the cancellation-aware polling loop that section
4.2 of the spec requires and that `gemini_dr._poll_response` does not
implement — the loop must check an externally supplied cancellation/deadline
signal before each sleep and before each poll, and on cancellation exit
immediately with a timeout-classified failure.  The check stream `cancelled`
is consulted at check number 2n before the n-th poll and at check number
2n+1 before the n-th sleep. -/
def pollCancelGo (cancelled : Nat → Bool) (script : Nat → JVal) :
    Nat → Nat → PollTrace
  | _, 0 =>
    { result := .error { name := "HTTPError", msg := timeoutMsg },
      polls := 0, sleeps := 0 }
  | attempt, remaining + 1 =>
    if cancelled (2 * attempt) then
      { result := .error { name := "HTTPError", msg := timeoutMsg },
        polls := 0, sleeps := 0 }
    else if (statusOf (script attempt)).isOneOf ["completed", "COMPLETED"] then
      { result := .ok (script attempt), polls := 1, sleeps := 0 }
    else if (statusOf (script attempt)).isOneOf ["failed", "FAILED"] then
      { result := .error ⟨"HTTPError",
          "Gemini deep research failed: " ++ failedMsg (script attempt)⟩,
        polls := 1, sleeps := 0 }
    else if cancelled (2 * attempt + 1) then
      { result := .error { name := "HTTPError", msg := timeoutMsg },
        polls := 1, sleeps := 0 }
    else
      { result := (pollCancelGo cancelled script (attempt + 1) remaining).result,
        polls := (pollCancelGo cancelled script (attempt + 1) remaining).polls + 1,
        sleeps := (pollCancelGo cancelled script (attempt + 1) remaining).sleeps + 1 }

/-- See `pollCancelGo`: the spec-required loop over the full attempt
budget. -/
def pollCancelSpec (cancelled : Nat → Bool) (script : Nat → JVal) :
    PollTrace :=
  pollCancelGo cancelled script 0 MAX_POLL_ATTEMPTS

/-- The report-text block of `gemini_dr._extract_report`: probe the outputs
list (take the last output; a dict yields its text field, else its content
field; a bare string yields itself — for a truthy string value of outputs,
Python indexing `[-1]` yields its last character, itself a string), then fall
back to the text or content field of a result dict when the report is still
empty. -/
def extractReportText (resp : JVal) : String :=
  let outputs := resp.get "outputs" (.arr [])
  let report :=
    if outputs.truthy then
      match outputs with
      | .arr xs =>
        match xs.getLast? with
        | some (.obj fields) =>
          ((JVal.obj fields).get "text"
            ((JVal.obj fields).get "content" (.str ""))).asString
        | some (.str s) => s
        | _ => ""
      | .str s =>
        match s.data.getLast? with
        | some c => String.mk [c]
        | none => ""
      | _ => ""
    else ""
  if report = "" then
    match resp.get "result" (.obj []) with
    | .obj fields =>
      ((JVal.obj fields).get "text"
        ((JVal.obj fields).get "content" (.str ""))).asString
    | _ => report
  else report

/-- The structured-sources block of `gemini_dr._extract_report`: the sources
field (defaulting to the webSearchQueries of groundingMetadata), when a list,
contributes one citation record per string or dict element (a bare string is
the url; a dict contributes its url field, else uri, plus its title field);
other element shapes are skipped, and a non-list sources value contributes
nothing. -/
def structuredCitations (resp : JVal) : List JVal :=
  let sources := resp.get "sources"
    ((resp.get "groundingMetadata" (.obj [])).get "webSearchQueries" (.arr []))
  match sources with
  | .arr srcs =>
    srcs.foldl (fun acc src =>
      match src with
      | .str s => acc ++ [JVal.obj [("url", .str s)]]
      | .obj fields =>
        acc ++ [JVal.obj
          [("url", (JVal.obj fields).get "url"
              ((JVal.obj fields).get "uri" (.str ""))),
           ("title", (JVal.obj fields).get "title" (.str ""))]]
      | _ => acc) []
  | _ => []

/-- A character that ends a URL match of the fallback regex: the excluded
class of the pattern is whitespace, a closing parenthesis, a greater-than
sign, or a closing square bracket.  Python regex whitespace over the ASCII
range is space, tab, newline, carriage return, form feed and vertical tab. -/
def isUrlStop (c : Char) : Bool :=
  c = ' ' || c = '\t' || c = '\n' || c = '\r' || c = '\x0c' ||
    c = '\x0b' || c = ')' || c = '>' || c = ']'

/-- The characters of the two possible scheme prefixes of the URL pattern. -/
def httpPrefix : List Char := "http://".data

/-- See `httpPrefix`. -/
def httpsPrefix : List Char := "https://".data

/-- Embeds `re.findall` of the URL pattern over the report text: scan left to
right; at a position where a scheme prefix is followed by at least one
non-stop character, the match is the prefix plus the greedy run of non-stop
characters and scanning resumes after it (matches are non-overlapping);
otherwise advance one character.  Every step consumes at least one character,
so the character count bounds the number of steps; the `fuel` argument makes
the recursion structural and is always instantiated with the full length of
the text, which therefore never runs out. -/
def findUrlsGo (fuel : Nat) (cs : List Char) : List String :=
  match fuel, cs with
  | 0, _ => []
  | _, [] => []
  | fuel + 1, c :: rest =>
    if httpsPrefix.isPrefixOf (c :: rest) then
      let tail := (c :: rest).drop 8
      let run := tail.takeWhile (fun ch => !isUrlStop ch)
      if run.isEmpty then findUrlsGo fuel rest
      else String.mk (httpsPrefix ++ run) ::
        findUrlsGo fuel (tail.drop run.length)
    else if httpPrefix.isPrefixOf (c :: rest) then
      let tail := (c :: rest).drop 7
      let run := tail.takeWhile (fun ch => !isUrlStop ch)
      if run.isEmpty then findUrlsGo fuel rest
      else String.mk (httpPrefix ++ run) ::
        findUrlsGo fuel (tail.drop run.length)
    else findUrlsGo fuel rest

/-- See `findUrlsGo`. -/
def findUrls (cs : List Char) : List String := findUrlsGo cs.length cs

/-- Embeds the seen-set loop of the inline-URL fallback: keep the first
occurrence of each URL, in order (`seen` is the set of URLs already kept,
modeled as a list with membership). -/
def dedupFirstAux (seen : List String) : List String → List String
  | [] => []
  | u :: us =>
    if u ∈ seen then dedupFirstAux seen us
    else u :: dedupFirstAux (u :: seen) us

/-- See `dedupFirstAux`: the loop starts with an empty seen set. -/
def dedupFirst (urls : List String) : List String := dedupFirstAux [] urls

/-- Statement-side characterization of first-occurrence deduplication: keep
each element the first time it appears and drop all its later duplicates. -/
def keepFirst : List String → List String
  | [] => []
  | u :: us => u :: keepFirst (us.filter (fun v => !(v == u)))
termination_by l => l.length
decreasing_by
  simp only [List.length_cons]
  exact Nat.lt_succ_of_le (List.length_filter_le _ us)

/-- Statement-side helper: the url string of a citation record. -/
def citUrl (c : JVal) : String := (c.get "url" (.str "")).asString

/-- Embeds `gemini_dr._extract_report`: report text, then structured
citations, then — when no structured citation was found and the report is
non-empty — the inline-URL fallback, appending one url record per first-seen
URL of the report text. -/
def extractReport (resp : JVal) : String × List JVal :=
  let report := extractReportText resp
  let citations := structuredCitations resp
  let citations :=
    if citations.isEmpty && report != "" then
      (dedupFirst (findUrls report.data)).map
        (fun u => JVal.obj [("url", JVal.str u)])
    else citations
  (report, citations)

/-- Embeds `gemini_dr.research`: `submitResp` is the parsed response of the
submission POST (the POST itself is a network effect outside the embedding),
`script` the scripted polling endpoint.  The interaction identifier is probed
under the keys name, id, interactionId; a falsy identifier raises.  A
submission response already carrying a completed status is extracted
directly; otherwise the polling loop runs and the completed response it
returns is extracted. -/
def research (submitResp : JVal) (script : Nat → JVal) : ResearchResult :=
  let interactionId :=
    submitResp.get "name"
      (submitResp.get "id" (submitResp.get "interactionId" (.str "")))
  if !interactionId.truthy then
    .error { name := "HTTPError", msg := "No interaction ID returned from Gemini" }
  else
    let status := statusOf submitResp
    if status.isOneOf ["completed", "COMPLETED"] then
      let rc := extractReport submitResp
      .ok (rc.1, rc.2, AGENT)
    else
      match (poll_response script).result with
      | .ok completed =>
        let rc := extractReport completed
        .ok (rc.1, rc.2, AGENT)
      | .error e => .error e

/-! General lemmas about the embedded operations. -/

theorem run_provider_provider (p : String) (res : ResearchResult)
    (m : String) (e : ℚ) : (run_provider p res m e).provider = p := by
  rcases res with e' | v
  · rfl
  · obtain ⟨r, c, m'⟩ := v
    rfl

theorem mockOutcome_provider (fs : String → Option JVal) (p : String) :
    (mockOutcome fs p).provider = p := by
  simp only [mockOutcome]
  split <;> rfl

theorem collectLive_ok {research : String → ResearchResult}
    {modelOf : String → String} {elapsedOf : String → ℚ}
    {co : List String} {arrived : Nat} {rs : List ProviderResult}
    (hok : collectLive research modelOf elapsedOf co arrived = .ok rs) :
    rs = co.map (fun p =>
      run_provider p (research p) (modelOf p) (elapsedOf p)) := by
  unfold collectLive at hok
  split at hok
  · exact absurd hok (by simp)
  · exact (Except.ok.inj hok).symm

theorem length_filter_eq_one_of_nodup {l : List String} {p : String}
    (h : l.Nodup) (hp : p ∈ l) :
    (l.filter (fun q => q = p)).length = 1 := by
  induction l with
  | nil => cases hp
  | cons a t ih =>
    rcases List.mem_cons.mp hp with h1 | hpt
    · subst h1
      have hnot : p ∉ t := (List.nodup_cons.mp h).1
      have hnil : t.filter (fun q => q = p) = [] := by
        rw [List.filter_eq_nil_iff]
        intro q hq
        simp only [decide_eq_true_eq]
        rintro rfl
        exact hnot hq
      simp [List.filter_cons, hnil]
    · have hne : ¬(a = p) := by
        rintro rfl
        exact (List.nodup_cons.mp h).1 hpt
      have := ih (List.nodup_cons.mp h).2 hpt
      simp [List.filter_cons, hne, this]

theorem length_filter_eq_zero_of_not_mem {l : List String} {p : String}
    (hp : p ∉ l) : (l.filter (fun q => q = p)).length = 0 := by
  have : l.filter (fun q => q = p) = [] := by
    rw [List.filter_eq_nil_iff]
    intro q hq
    simp only [decide_eq_true_eq]
    rintro rfl
    exact hp hq
  simp [this]

/-! C1 -/

/-- C1: for every invocation, live or mock, the outcome list produced by the
orchestrator contains exactly one ProviderOutcome per provider of the
active-provider set — never more, never fewer — even when every provider
call fails (the quantification over `research` covers all-failing behavior).
For the live mode this holds of every collection that completes (the
completed futures arrive in an arbitrary permutation of the active set);
for the mock mode the outcome list lists exactly the requested providers. -/
theorem c1_one_outcome_per_provider (research : String → ResearchResult)
    (modelOf : String → String) (elapsedOf : String → ℚ)
    (available completionOrder : List String) (arrived : Nat)
    (rs : List ProviderResult)
    (hperm : completionOrder.Perm available) (hnodup : available.Nodup)
    (hok : collectLive research modelOf elapsedOf completionOrder arrived
      = .ok rs) :
    rs.length = available.length ∧
    (∀ p ∈ available, (rs.filter (fun r => r.provider = p)).length = 1) ∧
    (∀ p, p ∉ available → (rs.filter (fun r => r.provider = p)).length = 0) ∧
    (∀ fs providers,
      (run_mock fs providers).map ProviderResult.provider = providers) := by
  have hrs := collectLive_ok hok
  have hfilter : ∀ p : String,
      (rs.filter (fun r => r.provider = p)).length =
      (available.filter (fun q => q = p)).length := by
    intro p
    subst hrs
    rw [List.filter_map, List.length_map]
    have hcongr : completionOrder.filter
        ((fun r : ProviderResult => decide (r.provider = p)) ∘
          (fun q => run_provider q (research q) (modelOf q) (elapsedOf q))) =
        completionOrder.filter (fun q => q = p) := by
      apply List.filter_congr
      intro q _
      simp [Function.comp, run_provider_provider]
    rw [hcongr]
    exact (hperm.filter (fun q => decide (q = p))).length_eq
  refine ⟨?_, ?_, ?_, ?_⟩
  · subst hrs
    rw [List.length_map]
    exact hperm.length_eq
  · intro p hp
    rw [hfilter p]
    exact length_filter_eq_one_of_nodup hnodup hp
  · intro p hp
    rw [hfilter p]
    exact length_filter_eq_zero_of_not_mem hp
  · intro fs providers
    unfold run_mock
    rw [List.map_map]
    have : ProviderResult.provider ∘ mockOutcome fs = id := by
      funext q
      exact mockOutcome_provider fs q
    rw [this, List.map_id]

/-- Witness for C1: a concrete invocation with two active providers whose
calls both fail, completing in the reverse of dispatch order. -/
theorem c1_one_outcome_per_provider_witness :
    (([("gemini" : String), "openai"]).Perm ["openai", "gemini"]) ∧
    ((fun rs : List ProviderResult =>
      rs.length = (["openai", "gemini"] : List String).length ∧
      (∀ p ∈ (["openai", "gemini"] : List String),
        (rs.filter (fun r => r.provider = p)).length = 1) ∧
      (∀ p, p ∉ (["openai", "gemini"] : List String) →
        (rs.filter (fun r => r.provider = p)).length = 0) ∧
      (∀ fs providers,
        (run_mock fs providers).map ProviderResult.provider = providers))
      (["gemini", "openai"].map (fun p =>
        run_provider p (.error ⟨"RuntimeError", "boom"⟩) "unknown" 0))) :=
  ⟨by decide,
   c1_one_outcome_per_provider (fun _ => .error ⟨"RuntimeError", "boom"⟩)
     (fun _ => "unknown") (fun _ => 0) ["openai", "gemini"]
     ["gemini", "openai"] 2 _ (by decide) (by decide) rfl⟩

/-! C2 -/

/-- C2: the claim says that when the global collection timeout elapses with a
provider invocation still outstanding, that provider is recorded as a failed
outcome with a timeout error kind and the invocation returns.  The code
instead lets the `TimeoutError` that `as_completed` raises at the `for`
statement escape `main` — the handler around `future.result()` is inside the
loop body and cannot catch it — so no outcome list is produced at all.  This
theorem evaluates the embedded collection at the failing input: two dispatched
providers of which only one completes within the ceiling; the collection
(and `main` after it) ends in the uncaught `TimeoutError`, not in an outcome
list containing a timeout-classified failure. -/
theorem c2_global_timeout_uncaught :
    collectLive (fun _ => .ok ("", [], "m")) (fun _ => "unknown")
      (fun _ => (0 : ℚ)) ["openai", "gemini"] 1 =
      .error ⟨"TimeoutError", ""⟩ ∧
    mainResults false (fun _ => none) (fun _ => .ok ("", [], "m"))
      (fun _ => "unknown") (fun _ => (0 : ℚ)) ["openai", "gemini"] 1 =
      .error ⟨"TimeoutError", ""⟩ := by
  exact ⟨rfl, rfl⟩

/-! C3 -/

/-- C3: every exception raised inside a provider unit of work is converted
into a failed ProviderOutcome carrying the exception type name and message,
and the other providers' outcomes are still recorded: whenever the collection
completes, each recorded outcome for a provider whose call raised is failed
and carries that classification, each outcome for a provider whose call
returned is successful, and one outcome exists per dispatched provider. -/
theorem c3_exception_isolation (research : String → ResearchResult)
    (modelOf : String → String) (elapsedOf : String → ℚ)
    (completionOrder : List String) (arrived : Nat)
    (rs : List ProviderResult)
    (hok : collectLive research modelOf elapsedOf completionOrder arrived
      = .ok rs) :
    (∀ r ∈ rs, ∀ e : PyExc, research r.provider = .error e →
      r.success = false ∧ r.error = some (e.name ++ ": " ++ e.msg)) ∧
    (∀ r ∈ rs, ∀ rep cits m, research r.provider = .ok (rep, cits, m) →
      r.success = true ∧ r.report = rep ∧ r.citations = cits) ∧
    rs.length = completionOrder.length := by
  have hrs := collectLive_ok hok
  subst hrs
  refine ⟨?_, ?_, by rw [List.length_map]⟩
  · intro r hr e he
    obtain ⟨q, _, rfl⟩ := List.mem_map.mp hr
    rw [run_provider_provider] at he
    rw [he]
    exact ⟨rfl, rfl⟩
  · intro r hr rep cits m he
    obtain ⟨q, _, rfl⟩ := List.mem_map.mp hr
    rw [run_provider_provider] at he
    rw [he]
    exact ⟨rfl, rfl, rfl⟩

/-- Witness for C3: the isolation scenario of the claim — providers A, B, C
where B raises an unclassified ValueError and A and C succeed; the collection
yields three outcomes, B failed with the exception rendered as type name and
message, A and C succeeded. -/
theorem c3_exception_isolation_witness :
    (collectLive
      (fun p => if p = "B" then .error ⟨"ValueError", "boom"⟩
        else .ok ("rep", [], "mod"))
      (fun _ => "unknown") (fun _ => (0 : ℚ)) ["A", "B", "C"] 3 =
      .ok [run_provider "A" (.ok ("rep", [], "mod")) "unknown" 0,
           run_provider "B" (.error ⟨"ValueError", "boom"⟩) "unknown" 0,
           run_provider "C" (.ok ("rep", [], "mod")) "unknown" 0]) ∧
    ((fun rs : List ProviderResult =>
      (∀ r ∈ rs, ∀ e : PyExc,
        (if r.provider = "B" then
          (.error ⟨"ValueError", "boom"⟩ : ResearchResult)
         else .ok ("rep", [], "mod")) = .error e →
        r.success = false ∧ r.error = some (e.name ++ ": " ++ e.msg)) ∧
      (∀ r ∈ rs, ∀ rep cits m,
        (if r.provider = "B" then
          (.error ⟨"ValueError", "boom"⟩ : ResearchResult)
         else .ok ("rep", [], "mod")) = .ok (rep, cits, m) →
        r.success = true ∧ r.report = rep ∧ r.citations = cits) ∧
      rs.length = (["A", "B", "C"] : List String).length)
      (["A", "B", "C"].map (fun p =>
        run_provider p
          (if p = "B" then .error ⟨"ValueError", "boom"⟩
            else .ok ("rep", [], "mod")) "unknown" 0))) :=
  ⟨rfl,
   c3_exception_isolation
     (fun p => if p = "B" then .error ⟨"ValueError", "boom"⟩
       else .ok ("rep", [], "mod"))
     (fun _ => "unknown") (fun _ => 0) ["A", "B", "C"] 3 _ rfl⟩

/-! Lemmas about the canonical sort. -/

theorem sortLE_trans (a b c : ProviderResult)
    (hab : decide (orderKey a.provider ≤ orderKey b.provider) = true)
    (hbc : decide (orderKey b.provider ≤ orderKey c.provider) = true) :
    decide (orderKey a.provider ≤ orderKey c.provider) = true := by
  simp only [decide_eq_true_eq] at *
  omega

theorem sortLE_total (a b : ProviderResult) :
    (decide (orderKey a.provider ≤ orderKey b.provider) ||
      decide (orderKey b.provider ≤ orderKey a.provider)) = true := by
  simp only [Bool.or_eq_true, decide_eq_true_eq]
  omega

theorem sortResults_perm (rs : List ProviderResult) :
    (sortResults rs).Perm rs :=
  List.mergeSort_perm rs _

theorem sortResults_sorted (rs : List ProviderResult) :
    (sortResults rs).Pairwise
      (fun a b => orderKey a.provider ≤ orderKey b.provider) := by
  have h := List.sorted_mergeSort sortLE_trans sortLE_total rs
  exact h.imp (by intro a b hab; exact decide_eq_true_eq.mp hab)

theorem orderKey_le (p : String) : orderKey p ≤ 99 := by
  by_cases h1 : p = "openai"
  · subst h1; decide
  by_cases h2 : p = "perplexity"
  · subst h2; decide
  by_cases h3 : p = "gemini"
  · subst h3; decide
  have b1 : (p == "openai") = false := by simp [h1]
  have b2 : (p == "perplexity") = false := by simp [h2]
  have b3 : (p == "gemini") = false := by simp [h3]
  simp [orderKey, List.lookup, b1, b2, b3]

theorem orderKey_inj_on_canonical {a b : String}
    (ha : a ∈ (["openai", "perplexity", "gemini"] : List String))
    (hb : b ∈ (["openai", "perplexity", "gemini"] : List String)) :
    orderKey a = orderKey b → a = b := by
  simp only [List.mem_cons, List.not_mem_nil, or_false] at ha hb
  rcases ha with rfl | rfl | rfl <;> rcases hb with rfl | rfl | rfl <;> decide

/-- Two permutations of one list, both strictly pairwise ordered by an
asymmetric relation, are equal. -/
theorem eq_of_perm_of_pairwise_asymm {α : Type} {lt : α → α → Prop}
    (hasymm : ∀ a b, lt a b → ¬lt b a) :
    ∀ {l₁ l₂ : List α}, l₁.Perm l₂ → l₁.Pairwise lt → l₂.Pairwise lt →
      l₁ = l₂ := by
  intro l₁
  induction l₁ with
  | nil =>
    intro l₂ hp _ _
    exact hp.nil_eq
  | cons a t ih =>
    intro l₂ hp h1 h2
    cases l₂ with
    | nil =>
      have := hp.length_eq
      simp at this
    | cons b u =>
      have hab : a = b := by
        by_contra hne
        have ham : a ∈ b :: u := hp.mem_iff.mp (List.mem_cons_self a t)
        have hbm : b ∈ a :: t := hp.symm.mem_iff.mp (List.mem_cons_self b u)
        have ha2 : a ∈ u := by
          rcases List.mem_cons.mp ham with h | h
          · exact absurd h hne
          · exact h
        have hb2 : b ∈ t := by
          rcases List.mem_cons.mp hbm with h | h
          · exact absurd h.symm hne
          · exact h
        have hlt1 : lt a b := (List.pairwise_cons.mp h1).1 b hb2
        have hlt2 : lt b a := (List.pairwise_cons.mp h2).1 a ha2
        exact hasymm a b hlt1 hlt2
      subst hab
      rw [ih hp.cons_inv (List.pairwise_cons.mp h1).2
        (List.pairwise_cons.mp h2).2]

/-- A list in which every element reachable after a key-99 element also has
key 99 splits as its non-99 part followed by its 99 part. -/
theorem suffix_decomp :
    ∀ {l : List ProviderResult},
    l.Pairwise (fun a b =>
      orderKey a.provider = 99 → orderKey b.provider = 99) →
    l = l.filter (fun r => !decide (orderKey r.provider = 99)) ++
      l.filter (fun r => decide (orderKey r.provider = 99)) := by
  intro l
  induction l with
  | nil => intro _; rfl
  | cons a t ih =>
    intro h
    obtain ⟨hhead, htail⟩ := List.pairwise_cons.mp h
    by_cases h99 : orderKey a.provider = 99
    · have hall : ∀ b ∈ t, orderKey b.provider = 99 := fun b hb =>
        hhead b hb h99
      have hneg : (a :: t).filter
          (fun r => !decide (orderKey r.provider = 99)) = [] := by
        rw [List.filter_eq_nil_iff]
        intro b hb
        rcases List.mem_cons.mp hb with rfl | hbt
        · simp [h99]
        · simp [hall b hbt]
      have hpos : (a :: t).filter
          (fun r => decide (orderKey r.provider = 99)) = a :: t := by
        rw [List.filter_eq_self]
        intro b hb
        rcases List.mem_cons.mp hb with rfl | hbt
        · simp [h99]
        · simp [hall b hbt]
      rw [hneg, hpos, List.nil_append]
    · have hd : decide (orderKey a.provider = 99) = false := by simp [h99]
      rw [List.filter_cons, List.filter_cons, hd, if_pos (by simp),
        if_neg (by simp), List.cons_append]
      exact congrArg (a :: ·) (ih htail)

/-- Stability of the canonical sort on the key-99 elements: the sorted list
keeps them exactly as they stand in the input. -/
theorem filter99_sortResults (ts : List ProviderResult) :
    (sortResults ts).filter (fun r => decide (orderKey r.provider = 99)) =
      ts.filter (fun r => decide (orderKey r.provider = 99)) := by
  have hpw : (ts.filter (fun r => decide (orderKey r.provider = 99))).Pairwise
      (fun a b =>
        decide (orderKey a.provider ≤ orderKey b.provider) = true) := by
    apply List.pairwise_of_forall_mem_list
    intro a ha b hb
    have ha99 := (List.mem_filter.mp ha).2
    have hb99 := (List.mem_filter.mp hb).2
    simp only [decide_eq_true_eq] at ha99 hb99 ⊢
    omega
  have hsub : (ts.filter (fun r => decide (orderKey r.provider = 99))).Sublist
      (sortResults ts) :=
    List.sublist_mergeSort sortLE_trans sortLE_total hpw
      (List.filter_sublist ts)
  have hsub2 : (ts.filter
      (fun r => decide (orderKey r.provider = 99))).Sublist
      ((sortResults ts).filter (fun r => decide (orderKey r.provider = 99)))
      := by
    have := hsub.filter (fun r => decide (orderKey r.provider = 99))
    rwa [List.filter_filter, List.filter_congr
      (by intro a _; exact Bool.and_self _)] at this
  have hlen : (ts.filter (fun r => decide (orderKey r.provider = 99))).length
      = ((sortResults ts).filter
        (fun r => decide (orderKey r.provider = 99))).length := by
    rw [← List.countP_eq_length_filter, ← List.countP_eq_length_filter]
    exact ((sortResults_perm ts).countP_eq _).symm
  exact (hsub2.eq_of_length hlen).symm

/-! C4 -/

/-- C4, counterexample: the claim says the final ordering is, for every
permutation of the collected outcome list, the identical canonical order,
with providers outside the canonical list last in original dispatch order.
Take two providers x and y outside the canonical list, dispatched in the
order x, y, whose outcomes complete in the order y, x.  The code sorts
stably by the canonical key, so both permutations of the collected list keep
their own relative order — the sorted output of the collection [y, x] is
[y, x], not the dispatch order [x, y] the claim requires, and the two
permutations do not sort to the identical order. -/
theorem c4_counterexample :
    (sortResults [{ provider := "y", success := true },
        { provider := "x", success := true }]).map ProviderResult.provider
      = ["y", "x"] ∧
    (sortResults [{ provider := "x", success := true },
        { provider := "y", success := true }]).map ProviderResult.provider
      = ["x", "y"] ∧
    (["y", "x"] : List String) ≠ ["x", "y"] := by
  refine ⟨?_, ?_, by decide⟩
  · rw [sortResults, List.mergeSort_of_sorted]
    · rfl
    · exact List.pairwise_of_forall_mem_list (by decide)
  · rw [sortResults, List.mergeSort_of_sorted]
    · rfl
    · exact List.pairwise_of_forall_mem_list (by decide)

/-- C4, amended: for every active-provider set drawn from the canonical list
with pairwise-distinct providers, sorting any permutation of the collected
outcome list yields the identical canonical order (a pure function of
provider identity, independent of completion timing); providers outside the
canonical list sort last, in collected (completion) order among themselves —
not in dispatch order. -/
theorem c4_canonical_order (rs rs' : List ProviderResult)
    (hcanon : ∀ r ∈ rs,
      r.provider ∈ (["openai", "perplexity", "gemini"] : List String))
    (hnodup : (rs.map ProviderResult.provider).Nodup)
    (hperm : rs'.Perm rs) :
    sortResults rs' = sortResults rs ∧
    ∀ ts : List ProviderResult,
      sortResults ts =
        (sortResults ts).filter (fun r => !decide (orderKey r.provider = 99))
          ++ ts.filter (fun r => decide (orderKey r.provider = 99)) := by
  constructor
  · have hkeys : (rs.map (fun r => orderKey r.provider)).Nodup := by
      have : rs.map (fun r => orderKey r.provider) =
          (rs.map ProviderResult.provider).map orderKey := by
        rw [List.map_map]
        rfl
      rw [this]
      apply List.Nodup.map_on ?_ hnodup
      intro x hx y hy hxy
      obtain ⟨rx, hrx, rfl⟩ := List.mem_map.mp hx
      obtain ⟨ry, hry, rfl⟩ := List.mem_map.mp hy
      exact orderKey_inj_on_canonical (hcanon rx hrx) (hcanon ry hry) hxy
    have hkeys' : (rs'.map (fun r => orderKey r.provider)).Nodup :=
      ((hperm.map (fun r => orderKey r.provider)).nodup_iff).mpr hkeys
    have hstrict : ∀ {l : List ProviderResult},
        (l.map (fun r => orderKey r.provider)).Nodup →
        (sortResults l).Pairwise
          (fun a b => orderKey a.provider < orderKey b.provider) := by
      intro l hk
      have hk2 : ((sortResults l).map
          (fun r => orderKey r.provider)).Nodup :=
        (((sortResults_perm l).map _).nodup_iff).mpr hk
      have hne : (sortResults l).Pairwise
          (fun a b => orderKey a.provider ≠ orderKey b.provider) :=
        List.pairwise_map.mp hk2
      exact ((sortResults_sorted l).and hne).imp
        (fun h => lt_of_le_of_ne h.1 h.2)
    exact eq_of_perm_of_pairwise_asymm (fun a b h h' => by omega)
      ((sortResults_perm rs').trans (hperm.trans (sortResults_perm rs).symm))
      (hstrict hkeys') (hstrict hkeys)
  · intro ts
    have himp : (sortResults ts).Pairwise (fun a b =>
        orderKey a.provider = 99 → orderKey b.provider = 99) :=
      (sortResults_sorted ts).imp (by
        intro a b hab h99
        have := orderKey_le b.provider
        omega)
    rw [← filter99_sortResults ts]
    exact suffix_decomp himp

/-- Witness for C4, amended: the three canonical providers collected in the
order gemini, openai, perplexity sort identically to the dispatch order
openai, gemini, perplexity of the same outcomes. -/
theorem c4_canonical_order_witness :
    ((∀ r ∈ ([{ provider := "openai", success := true },
        { provider := "gemini", success := true },
        { provider := "perplexity", success := true }] :
        List ProviderResult),
      r.provider ∈ (["openai", "perplexity", "gemini"] : List String)) ∧
     (([{ provider := "gemini", success := true },
        { provider := "openai", success := true },
        { provider := "perplexity", success := true }] :
        List ProviderResult).Perm
       [{ provider := "openai", success := true },
        { provider := "gemini", success := true },
        { provider := "perplexity", success := true }])) ∧
    (sortResults [{ provider := "gemini", success := true },
        { provider := "openai", success := true },
        { provider := "perplexity", success := true }] =
      sortResults [{ provider := "openai", success := true },
        { provider := "gemini", success := true },
        { provider := "perplexity", success := true }] ∧
     ∀ ts : List ProviderResult,
      sortResults ts =
        (sortResults ts).filter (fun r => !decide (orderKey r.provider = 99))
          ++ ts.filter (fun r => decide (orderKey r.provider = 99))) := by
  refine ⟨⟨by intro r hr; fin_cases hr <;> decide, ?_⟩, ?_⟩
  · refine List.Perm.trans (List.Perm.swap _ _ _) ?_
    exact List.Perm.refl _
  · exact c4_canonical_order _ _
      (by intro r hr; fin_cases hr <;> decide)
      (by decide)
      (List.Perm.trans (List.Perm.swap _ _ _) (List.Perm.refl _))

/-! Lemmas about the polling loop. -/

theorem pollGo_budget (s : Nat → JVal) :
    ∀ (r a : Nat), (pollGo s a r).polls ≤ r ∧ (pollGo s a r).sleeps ≤ r := by
  intro r
  induction r with
  | zero => intro a; exact ⟨Nat.le_refl 0, Nat.le_refl 0⟩
  | succ n ih =>
    intro a
    simp only [pollGo]
    split
    · exact ⟨Nat.succ_le_succ (Nat.zero_le n), Nat.zero_le _⟩
    · split
      · exact ⟨Nat.succ_le_succ (Nat.zero_le n), Nat.zero_le _⟩
      · exact ⟨Nat.succ_le_succ (ih (a + 1)).1,
          Nat.succ_le_succ (ih (a + 1)).2⟩

theorem pollGo_no_terminal (s : Nat → JVal) :
    ∀ (r a : Nat), (∀ i, i < r → isTerminal (s (a + i)) = false) →
    pollGo s a r =
      { result := .error ⟨"HTTPError", timeoutMsg⟩, polls := r, sleeps := r }
      := by
  intro r
  induction r with
  | zero => intro a _; rfl
  | succ n ih =>
    intro a h
    have h0 : isTerminal (s a) = false := by
      have := h 0 (by omega)
      simpa using this
    have hc : (statusOf (s a)).isOneOf ["completed", "COMPLETED"] = false ∧
        (statusOf (s a)).isOneOf ["failed", "FAILED"] = false := by
      unfold isTerminal at h0
      exact ⟨(Bool.or_eq_false_iff.mp h0).1, (Bool.or_eq_false_iff.mp h0).2⟩
    have hrec : pollGo s (a + 1) n =
        { result := .error ⟨"HTTPError", timeoutMsg⟩,
          polls := n, sleeps := n } := by
      apply ih
      intro i hi
      have := h (i + 1) (by omega)
      rwa [show a + (i + 1) = a + 1 + i by omega] at this
    simp only [pollGo, hc.1, hc.2, hrec]
    rfl

theorem pollGo_step_completed {s : Nat → JVal} {a r : Nat}
    (h : (statusOf (s a)).isOneOf ["completed", "COMPLETED"] = true) :
    pollGo s a (r + 1) = { result := .ok (s a), polls := 1, sleeps := 0 } := by
  simp only [pollGo, h, if_true]

theorem pollGo_step_progress {s : Nat → JVal} {a r : Nat}
    (hc : (statusOf (s a)).isOneOf ["completed", "COMPLETED"] = false)
    (hf : (statusOf (s a)).isOneOf ["failed", "FAILED"] = false) :
    pollGo s a (r + 1) =
      { result := (pollGo s (a + 1) r).result,
        polls := (pollGo s (a + 1) r).polls + 1,
        sleeps := (pollGo s (a + 1) r).sleeps + 1 } := by
  simp only [pollGo, hc, hf, Bool.false_eq_true, if_false]

theorem pollGo_sleeps_count (s : Nat → JVal) :
    ∀ (r a : Nat), (pollGo s a r).sleeps =
      ((List.range (pollGo s a r).polls).filter
        (fun i => !isTerminal (s (a + i)))).length := by
  intro r
  induction r with
  | zero => intro a; rfl
  | succ n ih =>
    intro a
    simp only [pollGo]
    split
    · rename_i hcomp
      have hterm : isTerminal (s a) = true := by
        unfold isTerminal
        rw [hcomp]
        rfl
      simp [List.range_succ, hterm]
    · split
      · rename_i hfail
        have hterm : isTerminal (s a) = true := by
          unfold isTerminal
          rw [hfail]
          simp
        simp [List.range_succ, hterm]
      · rename_i hcomp hfail
        have hterm : isTerminal (s a) = false := by
          unfold isTerminal
          rw [Bool.or_eq_false_iff]
          exact ⟨by simpa using hcomp, by simpa using hfail⟩
        simp only
        rw [List.range_succ_eq_map, List.filter_cons]
        have hhead : (!isTerminal (s (a + 0))) = true := by
          simpa using hterm
        rw [if_pos hhead, List.filter_map, List.length_cons,
          List.length_map]
        have hshift : (List.range (pollGo s (a + 1) n).polls).filter
            ((fun i => !isTerminal (s (a + i))) ∘ Nat.succ) =
            (List.range (pollGo s (a + 1) n).polls).filter
            (fun i => !isTerminal (s (a + 1 + i))) := by
          apply List.filter_congr
          intro i _
          simp only [Function.comp]
          rw [show a + Nat.succ i = a + 1 + i by omega]
        rw [hshift, ← ih (a + 1)]

/-! C5 -/

/-- C5: against a scripted sequence of poll responses in_progress,
in_progress, completed, the polling state machine issues exactly three
status-check calls (sleeping twice), returns the completed response — no
further poll occurs after the terminal status, whatever the script holds
beyond index two — and the provider client returns exactly the report and
citations the extraction policy produces from that completed response. -/
theorem c5_scripted_polling (script : Nat → JVal)
    (ip1 ip2 comp submitResp : JVal)
    (h0 : script 0 = ip1) (h1 : script 1 = ip2) (h2 : script 2 = comp)
    (hip1 : statusOf ip1 = .str "in_progress")
    (hip2 : statusOf ip2 = .str "in_progress")
    (hcomp : statusOf comp = .str "completed")
    (hid : (submitResp.get "name" (submitResp.get "id"
      (submitResp.get "interactionId" (.str "")))).truthy = true)
    (hpend : statusOf submitResp = .str "in_progress") :
    poll_response script =
      { result := .ok comp, polls := 3, sleeps := 2 } ∧
    research submitResp script =
      .ok ((extractReport comp).1, (extractReport comp).2, AGENT) := by
  have hc2 : (statusOf (script 2)).isOneOf ["completed", "COMPLETED"]
      = true := by rw [h2, hcomp]; decide
  have hc1c : (statusOf (script 1)).isOneOf ["completed", "COMPLETED"]
      = false := by rw [h1, hip2]; decide
  have hc1f : (statusOf (script 1)).isOneOf ["failed", "FAILED"]
      = false := by rw [h1, hip2]; decide
  have hc0c : (statusOf (script 0)).isOneOf ["completed", "COMPLETED"]
      = false := by rw [h0, hip1]; decide
  have hc0f : (statusOf (script 0)).isOneOf ["failed", "FAILED"]
      = false := by rw [h0, hip1]; decide
  have e2 : pollGo script 2 38 =
      { result := .ok comp, polls := 1, sleeps := 0 } := by
    rw [show (38 : Nat) = 37 + 1 from rfl, pollGo_step_completed hc2, h2]
  have e1 : pollGo script 1 39 =
      { result := .ok comp, polls := 2, sleeps := 1 } := by
    rw [show (39 : Nat) = 38 + 1 from rfl, pollGo_step_progress hc1c hc1f,
      e2]
  have e0 : pollGo script 0 40 =
      { result := .ok comp, polls := 3, sleeps := 2 } := by
    rw [show (40 : Nat) = 39 + 1 from rfl, pollGo_step_progress hc0c hc0f,
      e1]
  have hpoll : poll_response script =
      { result := .ok comp, polls := 3, sleeps := 2 } := e0
  refine ⟨hpoll, ?_⟩
  have hps : (JVal.str "in_progress").isOneOf ["completed", "COMPLETED"]
      = false := by decide
  simp only [research, hid, Bool.not_true, Bool.false_eq_true, if_false,
    hpend, hps, hpoll]

/-- Witness for C5: a concrete script of two in_progress responses followed
by a completed response carrying a report. -/
theorem c5_scripted_polling_witness :
    poll_response (fun n => if n = 2 then
        JVal.obj [("status", .str "completed"), ("outputs", .arr [.str "the report"])]
      else JVal.obj [("status", .str "in_progress")]) =
      { result := .ok (JVal.obj [("status", .str "completed"),
          ("outputs", .arr [.str "the report"])]), polls := 3, sleeps := 2 } ∧
    research (JVal.obj [("name", .str "job-1"), ("status", .str "in_progress")])
      (fun n => if n = 2 then
        JVal.obj [("status", .str "completed"), ("outputs", .arr [.str "the report"])]
      else JVal.obj [("status", .str "in_progress")]) =
      .ok ((extractReport (JVal.obj [("status", .str "completed"),
          ("outputs", .arr [.str "the report"])])).1,
        (extractReport (JVal.obj [("status", .str "completed"),
          ("outputs", .arr [.str "the report"])])).2, AGENT) :=
  c5_scripted_polling _ _ _ _ _ rfl rfl rfl rfl rfl rfl rfl rfl

/-! C6 -/

/-- C6: for every sequence of poll responses the polling loop issues at most
MAX_POLL_ATTEMPTS status-check calls and sleeps at most MAX_POLL_ATTEMPTS
times of POLL_INTERVAL seconds each (so interval and attempt ceiling bound
the wall-clock time a provider may occupy); when no terminal status appears
within the budget it ends in a failure classified as a timeout, whose
message differs from every provider-reported failure message. -/
theorem c6_attempt_ceiling (script : Nat → JVal)
    (hnoterm : ∀ n, n < MAX_POLL_ATTEMPTS → isTerminal (script n) = false) :
    (∀ s : Nat → JVal,
      (poll_response s).polls ≤ MAX_POLL_ATTEMPTS ∧
      (poll_response s).sleeps ≤ MAX_POLL_ATTEMPTS ∧
      POLL_INTERVAL * (poll_response s).sleeps ≤
        POLL_INTERVAL * MAX_POLL_ATTEMPTS) ∧
    poll_response script =
      { result := .error ⟨"HTTPError", timeoutMsg⟩,
        polls := MAX_POLL_ATTEMPTS, sleeps := MAX_POLL_ATTEMPTS } ∧
    (∀ m : String, timeoutMsg ≠ "Gemini deep research failed: " ++ m) := by
  refine ⟨?_, ?_, ?_⟩
  · intro s
    obtain ⟨hp, hs⟩ := pollGo_budget s MAX_POLL_ATTEMPTS 0
    exact ⟨hp, hs, Nat.mul_le_mul_left _ hs⟩
  · apply pollGo_no_terminal
    intro i hi
    simpa using hnoterm i hi
  · intro m h
    have h2 := congrArg (fun s => s.data[21]?) h
    simp only at h2
    rw [String.data_append] at h2
    rw [List.getElem?_append_left (by decide : (21 : Nat) <
      ("Gemini deep research failed: ").data.length)] at h2
    exact absurd h2 (by decide)

/-- Witness for C6: the constant in_progress script never reaches a terminal
status, so the loop stops after 40 polls with the timeout failure. -/
theorem c6_attempt_ceiling_witness :
    (∀ s : Nat → JVal,
      (poll_response s).polls ≤ MAX_POLL_ATTEMPTS ∧
      (poll_response s).sleeps ≤ MAX_POLL_ATTEMPTS ∧
      POLL_INTERVAL * (poll_response s).sleeps ≤
        POLL_INTERVAL * MAX_POLL_ATTEMPTS) ∧
    poll_response (fun _ => JVal.obj [("status", .str "in_progress")]) =
      { result := .error ⟨"HTTPError", timeoutMsg⟩,
        polls := MAX_POLL_ATTEMPTS, sleeps := MAX_POLL_ATTEMPTS } ∧
    (∀ m : String, timeoutMsg ≠ "Gemini deep research failed: " ++ m) :=
  c6_attempt_ceiling (fun _ => JVal.obj [("status", .str "in_progress")])
    (fun _ _ => rfl)

/-! C7 -/

/-- C7, counterexample: the claim says the polling loop checks an externally
supplied cancellation/deadline signal before each sleep and each poll and on
cancellation exits immediately with a timeout-classified failure, never
letting a sleep run past the deadline.  The loop in the source consults no
such signal: with the deadline already passed before the first check (the
always-cancelled signal) and a never-terminal script, the spec-required loop
performs zero polls and zero sleeps, while the code performs all forty polls
and forty sleeps — every one of them past the deadline. -/
theorem c7_counterexample :
    poll_response (fun _ => JVal.obj [("status", .str "in_progress")]) =
      { result := .error ⟨"HTTPError", timeoutMsg⟩,
        polls := 40, sleeps := 40 } ∧
    pollCancelSpec (fun _ => true)
      (fun _ => JVal.obj [("status", .str "in_progress")]) =
      { result := .error ⟨"HTTPError", timeoutMsg⟩,
        polls := 0, sleeps := 0 } ∧
    (40 : Nat) ≠ 0 := by
  refine ⟨?_, rfl, by omega⟩
  exact pollGo_no_terminal _ MAX_POLL_ATTEMPTS 0 (fun _ _ => rfl)

/-- C7, amended: the polling loop consults no cancellation or deadline
signal.  After every non-terminal poll — whatever an external deadline might
say — it sleeps for the fixed interval unconditionally: on every script the
number of sleeps equals the number of non-terminal polls, and the loop exits
only on a terminal status or after the attempt ceiling. -/
theorem c7_no_cancellation_check (script : Nat → JVal) :
    (poll_response script).sleeps =
      ((List.range (poll_response script).polls).filter
        (fun n => !isTerminal (script n))).length ∧
    (poll_response script).polls ≤ MAX_POLL_ATTEMPTS := by
  constructor
  · have := pollGo_sleeps_count script MAX_POLL_ATTEMPTS 0
    simpa using this
  · exact (pollGo_budget script MAX_POLL_ATTEMPTS 0).1

/-! Lemmas about citation deduplication. -/

theorem dedupFirstAux_eq_keepFirst :
    ∀ (us seen : List String),
    dedupFirstAux seen us =
      keepFirst (us.filter (fun v => !decide (v ∈ seen))) := by
  intro us
  induction us with
  | nil => intro seen; simp [dedupFirstAux, keepFirst]
  | cons u us ih =>
    intro seen
    by_cases hu : u ∈ seen
    · rw [dedupFirstAux, if_pos hu, List.filter_cons,
        if_neg (by simp [hu]), ih]
    · rw [dedupFirstAux, if_neg hu, List.filter_cons, if_pos (by simp [hu]),
        keepFirst, ih (u :: seen), List.filter_filter]
      have hf : us.filter (fun v => !decide (v ∈ u :: seen)) =
          us.filter (fun a => (!(a == u)) && !decide (a ∈ seen)) := by
        apply List.filter_congr
        intro v _
        by_cases h1 : v = u <;> by_cases h2 : v ∈ seen <;>
          simp [h1, h2, List.mem_cons]
      rw [hf]

theorem dedupFirst_eq_keepFirst (urls : List String) :
    dedupFirst urls = keepFirst urls := by
  rw [dedupFirst, dedupFirstAux_eq_keepFirst]
  congr 1
  apply List.filter_eq_self.mpr
  intro a _
  simp

theorem mem_keepFirst_sub : ∀ (l : List String), ∀ v ∈ keepFirst l, v ∈ l := by
  intro l
  induction l using keepFirst.induct with
  | case1 =>
    intro v hv
    rw [keepFirst] at hv
    cases hv
  | case2 u us ih =>
    intro v hv
    rw [keepFirst] at hv
    rcases List.mem_cons.mp hv with rfl | hv2
    · exact List.mem_cons_self _ _
    · exact List.mem_cons_of_mem _ ((List.mem_filter.mp (ih v hv2)).1)

theorem keepFirst_nodup : ∀ (l : List String), (keepFirst l).Nodup := by
  intro l
  induction l using keepFirst.induct with
  | case1 =>
    rw [keepFirst]
    exact List.nodup_nil
  | case2 u us ih =>
    rw [keepFirst, List.nodup_cons]
    refine ⟨?_, ih⟩
    intro hmem
    have := (List.mem_filter.mp
      (mem_keepFirst_sub _ u hmem)).2
    simp at this

/-! C8 -/

/-- C8, counterexample: the claim says every single extraction pass
deduplicates citations by URL.  The structured-sources path of
`_extract_report` does not: a completed response whose sources list holds the
same URL twice yields a citation list with that URL twice. -/
theorem c8_counterexample :
    (extractReport (JVal.obj [("outputs", .arr [.str "r"]),
      ("sources", .arr [.str "http://a.example", .str "http://a.example"])])).2
      = [JVal.obj [("url", .str "http://a.example")],
         JVal.obj [("url", .str "http://a.example")]] ∧
    ¬ (((extractReport (JVal.obj [("outputs", .arr [.str "r"]),
      ("sources",
        .arr [.str "http://a.example", .str "http://a.example"])])).2.map
          citUrl).Nodup) := by
  have hcit : (extractReport (JVal.obj [("outputs", .arr [.str "r"]),
      ("sources", .arr [.str "http://a.example", .str "http://a.example"])])).2
      = [JVal.obj [("url", .str "http://a.example")],
         JVal.obj [("url", .str "http://a.example")]] := rfl
  refine ⟨hcit, ?_⟩
  rw [hcit]
  decide

/-- C8, amended: deduplication by URL happens only on the inline-URL
fallback path.  For a response with no structured citations and a non-empty
report, the extracted citation list carries each distinct literal URL of the
report exactly once, in first-occurrence order (the seen-set loop equals the
keep-the-first-occurrence function, and the resulting URL list has no
duplicates); the structured-sources path, by the counterexample, does not
deduplicate. -/
theorem c8_fallback_dedup (resp : JVal)
    (hnostruct : structuredCitations resp = [])
    (hrep : extractReportText resp ≠ "") :
    (extractReport resp).2 =
      (keepFirst (findUrls (extractReportText resp).data)).map
        (fun u => JVal.obj [("url", JVal.str u)]) ∧
    ((extractReport resp).2.map citUrl).Nodup ∧
    (extractReport resp).1 = extractReportText resp := by
  have hcond : ((structuredCitations resp).isEmpty &&
      (extractReportText resp != "")) = true := by
    rw [hnostruct]
    simp [hrep]
  have h2 : (extractReport resp).2 =
      (dedupFirst (findUrls (extractReportText resp).data)).map
        (fun u => JVal.obj [("url", JVal.str u)]) := by
    simp only [extractReport, hcond, if_true]
  refine ⟨?_, ?_, rfl⟩
  · rw [h2, dedupFirst_eq_keepFirst]
  · rw [h2, dedupFirst_eq_keepFirst, List.map_map]
    have hid : citUrl ∘ (fun u => JVal.obj [("url", JVal.str u)]) = id := by
      funext u
      rfl
    rw [hid, List.map_id]
    exact keepFirst_nodup _

/-- Witness for C8, amended: a response whose report text repeats one URL and
holds another, with no structured sources; the extraction keeps http://a
once and http://b once, in first-occurrence order. -/
theorem c8_fallback_dedup_witness :
    (structuredCitations (JVal.obj [("outputs",
        .arr [.str "see http://a and http://a and http://b"])]) = []) ∧
    ((extractReport (JVal.obj [("outputs",
        .arr [.str "see http://a and http://a and http://b"])])).2 =
      [JVal.obj [("url", .str "http://a")],
       JVal.obj [("url", .str "http://b")]]) ∧
    ((extractReport (JVal.obj [("outputs",
        .arr [.str "see http://a and http://a and http://b"])])).2 =
      (keepFirst (findUrls (extractReportText (JVal.obj [("outputs",
        .arr [.str "see http://a and http://a and http://b"])])).data)).map
        (fun u => JVal.obj [("url", JVal.str u)]) ∧
     ((extractReport (JVal.obj [("outputs",
        .arr [.str "see http://a and http://a and http://b"])])).2.map
          citUrl).Nodup ∧
     (extractReport (JVal.obj [("outputs",
        .arr [.str "see http://a and http://a and http://b"])])).1 =
       extractReportText (JVal.obj [("outputs",
        .arr [.str "see http://a and http://a and http://b"])])) :=
  ⟨rfl, rfl,
   c8_fallback_dedup _ rfl (by decide)⟩

/-! C9 -/

theorem mockOutcome_missing {fs : String → Option JVal} {p : String}
    (hmiss : fs ((fixture_map.lookup p).getD "") = none) :
    mockOutcome fs p =
      { provider := p, success := false,
        error := some ("Fixture not found: " ++
          (fixture_map.lookup p).getD "unknown") } := by
  simp [mockOutcome, load_fixture, hmiss, JVal.truthy]

/-- C9: in mock mode, a requested provider whose fixture file is missing
yields a failed ProviderOutcome carrying a fixture-not-found message rather
than an exception, and mock mode consults no network input at all: the mock
invocation result is the same whatever the provider behaviors, model
fallbacks, elapsed times or completion events are, and it is always an
ordinary (non-raising) result. -/
theorem c9_missing_fixture (fs : String → Option JVal) (p : String)
    (hp : p ∈ (["openai", "perplexity", "gemini"] : List String))
    (hmiss : fs ((fixture_map.lookup p).getD "") = none) :
    ((run_mock fs ["openai", "perplexity", "gemini"]).filter
      (fun r => r.provider = p)) =
      [{ provider := p, success := false,
         error := some ("Fixture not found: " ++
           (fixture_map.lookup p).getD "unknown") }] ∧
    (∀ (research : String → ResearchResult) (modelOf : String → String)
       (elapsedOf : String → ℚ) (co : List String) (arrived : Nat),
      mainResults true fs research modelOf elapsedOf co arrived =
        .ok (sortResults (run_mock fs ["openai", "perplexity", "gemini"])))
      := by
  refine ⟨?_, fun _ _ _ _ _ => rfl⟩
  simp only [List.mem_cons, List.not_mem_nil, or_false] at hp
  rcases hp with rfl | rfl | rfl <;>
    simp [run_mock, List.filter_cons, mockOutcome_provider,
      mockOutcome_missing hmiss]

/-- Witness for C9: an empty fixtures directory and the provider gemini. -/
theorem c9_missing_fixture_witness :
    (((run_mock (fun _ => none) ["openai", "perplexity", "gemini"]).filter
      (fun r => r.provider = "gemini")) =
      [{ provider := "gemini", success := false,
         error := some ("Fixture not found: " ++
           (fixture_map.lookup "gemini").getD "unknown") }] ∧
    (∀ (research : String → ResearchResult) (modelOf : String → String)
       (elapsedOf : String → ℚ) (co : List String) (arrived : Nat),
      mainResults true (fun _ => none) research modelOf elapsedOf co arrived =
        .ok (sortResults
          (run_mock (fun _ => none) ["openai", "perplexity", "gemini"])))) :=
  c9_missing_fixture (fun _ => none) "gemini" (by decide) rfl

end DeepResearch
